import Mathlib

/-!
Verification of the statistics caching subsystem implemented in
`backend/src/routes/stats.js`.

The embedding is shallow: JavaScript numbers are modelled as rationals
(`ℚ`) for prices and as naturals (`ℕ`) for millisecond timestamps, the
nullable module-level `statsCache` object becomes a `CacheEntry` record of
`Option` fields, and the asynchronous route handler becomes a pure state
transformer `getStatistics` that receives the ambient inputs of one call
(the clock value `Date.now()`, the result of the `fs.stat` probe, and the
result of the `fs.readFile` + `JSON.parse` step) as explicit arguments.
JavaScript truthiness on `number | null` values (where both `null` and `0`
are falsy) is modelled by `truthyOptNat`.
-/

deriving instance DecidableEq for Except

namespace StatsRoute

/-- One item record as parsed from `data/items.json`.  Only the fields the
statistics code looks at are modelled; `price` and `category` may be
missing on a malformed record, which the calculator tolerates. -/
structure Item where
  price : Option ℚ
  category : Option String
deriving Repr, DecidableEq

/-- JS `item.price || 0`: a missing price is replaced by `0`; a present
price of `0` is falsy in JS and also yields `0` (the same value). -/
def priceOf (i : Item) : ℚ :=
  match i.price with
  | none => 0
  | some p => if p = 0 then 0 else p

/-- The literal default category used by the source. -/
def unknownCategory : String := "Unknown"

/-- JS `item.category || 'Unknown'`: a missing category, and the falsy
empty string, are both replaced by the literal `"Unknown"`. -/
def categoryOf (i : Item) : String :=
  match i.category with
  | none => unknownCategory
  | some c => if c = "" then unknownCategory else c

/-- JS `x || 0` applied to an optional number (`prices[0] || 0` where the
index may be out of range): `undefined` and the falsy number `0` both give
`0`. -/
def jsOrZero : Option ℚ → ℚ
  | none => 0
  | some v => if v = 0 then 0 else v

/-- JS `Math.round`: round half toward positive infinity,
`Math.round(x) = ⌊x + 1/2⌋`. -/
def jsRound (x : ℚ) : ℤ := ⌊x + 1 / 2⌋

/-- `Math.round(x * 100) / 100`, the 2-decimal rounding used for
`averagePrice` in `calculateStats`. -/
def round2 (x : ℚ) : ℚ := (jsRound (x * 100) : ℚ) / 100

/-- The statistics object produced by `calculateStats`.  The empty-input
branch of the source returns an object carrying only `total` and
`averagePrice`; the remaining fields are therefore `Option`s that are
`none` exactly on that branch. -/
structure StatsSnapshot where
  total : ℕ
  averagePrice : ℚ
  minPrice : Option ℚ
  maxPrice : Option ℚ
  categoryBreakdown : Option (List (String × ℕ))
  lastUpdated : Option ℕ
deriving Repr, DecidableEq

/-- One step of the `reduce` building the category breakdown:
`acc[category] = (acc[category] || 0) + 1` on an insertion-ordered JS
object, modelled as an association list. -/
def bumpCategory (acc : List (String × ℕ)) (c : String) : List (String × ℕ) :=
  if acc.any (fun p => p.1 = c) then
    acc.map (fun p => if p.1 = c then (p.1, p.2 + 1) else p)
  else
    acc ++ [(c, 1)]

/-- The `items.reduce` computing the category breakdown. -/
def categoryStatsOf (items : List Item) : List (String × ℕ) :=
  items.foldl (fun acc i => bumpCategory acc (categoryOf i)) []

/-- The snapshot returned by the empty-input short-circuit branch
`return { total: 0, averagePrice: 0 }`. -/
def emptySnapshot : StatsSnapshot :=
  { total := 0, averagePrice := 0, minPrice := none, maxPrice := none,
    categoryBreakdown := none, lastUpdated := none }

/-- `calculateStats(items)` from `stats.js`.  `now` stands for the wall
clock read by `new Date().toISOString()` when `lastUpdated` is produced.
The guard `!items || items.length === 0` collapses to `items = []` since a
parsed JSON array is never `null` here. -/
def calculateStats (items : List Item) (now : ℕ) : StatsSnapshot :=
  if items.length = 0 then
    emptySnapshot
  else
    let total := items.length
    let totalPrice := items.foldl (fun acc i => acc + priceOf i) 0
    let averagePrice := round2 (totalPrice / (total : ℚ))
    let prices := (items.map priceOf).mergeSort (fun a b => decide (a ≤ b))
    let minPrice := jsOrZero prices.head?
    let maxPrice := jsOrZero prices.getLast?
    { total := total
      averagePrice := averagePrice
      minPrice := some minPrice
      maxPrice := some maxPrice
      categoryBreakdown := some (categoryStatsOf items)
      lastUpdated := some now }

/-- JS truthiness of a `number | null` value: `null` and `0` are falsy,
every other number is truthy. -/
def truthyOptNat : Option ℕ → Bool
  | none => false
  | some n => n != 0

/-- The module-level `statsCache` object: `data`, `lastModified` (the
stored source-version token, a file modification time in ms) and `expiry`,
each nullable. -/
structure CacheEntry where
  data : Option StatsSnapshot
  lastModified : Option ℕ
  expiry : Option ℕ
deriving Repr, DecidableEq

/-- The initial value of `statsCache`: all three fields `null`. -/
def emptyCache : CacheEntry := { data := none, lastModified := none, expiry := none }

/-- `CACHE_DURATION = 5 * 60 * 1000`. -/
def CACHE_DURATION : ℕ := 5 * 60 * 1000

/-- The `shouldRefreshCache` condition of the GET handler:
`!statsCache.data || !statsCache.expiry || now > statsCache.expiry ||
(fileModTime && statsCache.lastModified !== fileModTime)`.
`fileModTime` is the result of `getFileModifiedTime()`: `none` models the
`null` returned when the `fs.stat` probe fails.  In the comparison
`now > statsCache.expiry` a `null` expiry coerces to `0` (JS `ToNumber`),
hence `Option.getD 0`; that disjunct is anyway short-circuited unless
`expiry` is truthy. -/
def shouldRefreshCache (cache : CacheEntry) (now : ℕ) (fileModTime : Option ℕ) : Bool :=
  cache.data.isNone
    || !truthyOptNat cache.expiry
    || decide (cache.expiry.getD 0 < now)
    || (truthyOptNat fileModTime && decide (cache.lastModified ≠ fileModTime))

/-- The observable outcome of one GET `/api/stats` call: the JSON response
(`Except.error` when the handler forwarded an exception to `next`), the
`statsCache` value after the call, and whether the refresh branch ran
(i.e. whether this call performed the full read-and-recompute). -/
structure GetStatsResult where
  response : Except Unit (Option StatsSnapshot)
  cache : CacheEntry
  didRefresh : Bool
deriving Repr, DecidableEq

/-- The GET `/api/stats` handler.  Per call the ambient effects are its
arguments: `now = Date.now()` at the start of the call, `fileModTime` the
probe result, and `readResult` the outcome of `fs.readFile` + `JSON.parse`
(only consulted on the refresh branch).  On a refresh the handler replaces
`statsCache` wholesale with `{ data, lastModified: fileModTime, expiry:
now + CACHE_DURATION }` and responds with the new data; on a cache hit it
responds with the stored data and leaves the state untouched; if the read
throws, the error goes to `next(error)` and the state is untouched. -/
def getStatistics (cache : CacheEntry) (now : ℕ) (fileModTime : Option ℕ)
    (readResult : Except Unit (List Item)) : GetStatsResult :=
  if shouldRefreshCache cache now fileModTime then
    match readResult with
    | .error e => { response := .error e, cache := cache, didRefresh := true }
    | .ok items =>
        let stats := calculateStats items now
        let newCache : CacheEntry :=
          { data := some stats
            lastModified := fileModTime
            expiry := some (now + CACHE_DURATION) }
        { response := .ok newCache.data, cache := newCache, didRefresh := true }
  else
    { response := .ok cache.data, cache := cache, didRefresh := false }

/-- The DELETE `/api/stats/cache` handler: reset `statsCache` to the
all-`null` object, unconditionally. -/
def invalidate (_cache : CacheEntry) : CacheEntry := emptyCache

/-- One externally triggered operation on the cache state. -/
inductive Op where
  | stats (now : ℕ) (fileModTime : Option ℕ) (readResult : Except Unit (List Item))
  | clearCache
deriving Repr, DecidableEq

/-- The state transition of one operation. -/
def stepOp (cache : CacheEntry) : Op → CacheEntry
  | .stats now t rd => (getStatistics cache now t rd).cache
  | .clearCache => invalidate cache

/-- The cache state after a sequence of operations run from process
start. -/
def runOps (ops : List Op) : CacheEntry := ops.foldl stepOp emptyCache

/-- A cache state the process can actually be in. -/
def Reachable (cache : CacheEntry) : Prop := ∃ ops, runOps ops = cache

/-- States the implementation actually maintains: `data` and `expiry` are
set and cleared together, a set `expiry` is at least `CACHE_DURATION`
(since it is always written as `now + CACHE_DURATION`), and `lastModified`
is only ever set together with `data`. -/
def Inv (cache : CacheEntry) : Prop :=
  (cache.data.isSome = true ↔ cache.expiry.isSome = true) ∧
    (∀ e, cache.expiry = some e → CACHE_DURATION ≤ e) ∧
    (cache.lastModified.isSome = true → cache.data.isSome = true)

/-- The exact condition, on states satisfying `Inv`, under which a call is
served from the cache: snapshot present, `now` within the TTL window, and
the probed token either falsy (probe failure, or the falsy timestamp `0`)
or equal to the stored token. -/
def cacheValid (cache : CacheEntry) (now : ℕ) (fileModTime : Option ℕ) : Prop :=
  cache.data.isSome = true ∧ cache.expiry.isSome = true ∧
    now ≤ cache.expiry.getD 0 ∧
    (truthyOptNat fileModTime = false ∨ fileModTime = cache.lastModified)

/-- The validity condition exactly as claim C1 words it: snapshot present,
current time at most `expiresAt`, and the current version token equal to
the stored `sourceVersion`, where only a failed probe (no token at all)
counts as equal.  This is the claim-side statement, written from the spec
text, to be compared against the behaviour of `shouldRefreshCache`. -/
def specValidC1 (cache : CacheEntry) (now : ℕ) (fileModTime : Option ℕ) : Prop :=
  cache.data.isSome = true ∧ cache.expiry.isSome = true ∧
    now ≤ cache.expiry.getD 0 ∧
    (fileModTime = none ∨ fileModTime = cache.lastModified)

/-- Number of full read-and-recompute pairs performed by one call. -/
def readPairs (r : GetStatsResult) : ℕ := if r.didRefresh then 1 else 0

/-! ### General lemmas about the cache step -/

/-- Whether a call runs the refresh branch depends only on
`shouldRefreshCache`, not on the outcome of the data read. -/
theorem didRefresh_eq (cache : CacheEntry) (now : ℕ) (fileModTime : Option ℕ)
    (readResult : Except Unit (List Item)) :
    (getStatistics cache now fileModTime readResult).didRefresh =
      shouldRefreshCache cache now fileModTime := by
  unfold getStatistics
  split
  · next h => cases readResult <;> simp [h]
  · next h => simp only [Bool.not_eq_true] at h; simp [h]

theorem inv_empty : Inv emptyCache := by
  refine ⟨by simp [emptyCache], ?_, by simp [emptyCache]⟩
  intro e he
  simp [emptyCache] at he

theorem inv_step (cache : CacheEntry) (h : Inv cache) (op : Op) : Inv (stepOp cache op) := by
  obtain ⟨h1, h2, h3⟩ := h
  cases op with
  | clearCache => exact inv_empty
  | stats now t rd =>
      show Inv (getStatistics cache now t rd).cache
      unfold getStatistics
      split
      · cases rd with
        | error e => exact ⟨h1, h2, h3⟩
        | ok items =>
            refine ⟨by simp, ?_, by simp⟩
            intro e he
            simp at he
            omega
      · exact ⟨h1, h2, h3⟩

theorem reachable_inv {cache : CacheEntry} (h : Reachable cache) : Inv cache := by
  obtain ⟨ops, hops⟩ := h
  subst hops
  unfold runOps
  have aux : ∀ (l : List Op) (c : CacheEntry), Inv c → Inv (l.foldl stepOp c) := by
    intro l
    induction l with
    | nil => intro c hc; exact hc
    | cons o t ih => intro c hc; exact ih (stepOp c o) (inv_step c hc o)
  exact aux ops emptyCache inv_empty

theorem truthyOptNat_some (n : ℕ) : truthyOptNat (some n) = (n != 0) := rfl

theorem shouldRefresh_false_iff (cache : CacheEntry) (hInv : Inv cache) (now : ℕ)
    (fileModTime : Option ℕ) :
    shouldRefreshCache cache now fileModTime = false ↔ cacheValid cache now fileModTime := by
  obtain ⟨h1, h2, _⟩ := hInv
  obtain ⟨d, lm, e⟩ := cache
  cases d with
  | none =>
      simp [shouldRefreshCache, cacheValid]
  | some s =>
      cases e with
      | none => simp at h1
      | some ev =>
          have hev : CACHE_DURATION ≤ ev := h2 ev rfl
          have hev0 : ev ≠ 0 := by unfold CACHE_DURATION at hev; omega
          cases htok : truthyOptNat fileModTime with
          | false =>
              simp [shouldRefreshCache, cacheValid, truthyOptNat_some, hev0, Nat.not_lt, htok]
          | true =>
              simp [shouldRefreshCache, cacheValid, truthyOptNat_some, hev0, Nat.not_lt, htok]
              intro _
              exact eq_comm

theorem shouldRefresh_eq_false {cache : CacheEntry} {now : ℕ} {fileModTime : Option ℕ}
    (h1 : cache.data.isSome = true) (h2 : truthyOptNat cache.expiry = true)
    (h3 : now ≤ cache.expiry.getD 0)
    (h4 : truthyOptNat fileModTime = false ∨ cache.lastModified = fileModTime) :
    shouldRefreshCache cache now fileModTime = false := by
  obtain ⟨d, hd⟩ := Option.isSome_iff_exists.mp h1
  rcases h4 with h4 | h4 <;>
    simp [shouldRefreshCache, hd, h2, Nat.not_lt.mpr h3, h4]

theorem shouldRefresh_false_parts {cache : CacheEntry} {now : ℕ} {tok : Option ℕ}
    (h : shouldRefreshCache cache now tok = false) :
    cache.data.isSome = true ∧ truthyOptNat cache.expiry = true ∧
      now ≤ cache.expiry.getD 0 ∧
      (truthyOptNat tok = false ∨ cache.lastModified = tok) := by
  simp only [shouldRefreshCache, Bool.or_eq_false_iff, Bool.and_eq_false_iff,
    decide_eq_false_iff_not, Bool.not_eq_false, Nat.not_lt, Option.isNone_eq_false_iff] at h
  obtain ⟨⟨⟨hd, he⟩, hlt⟩, hor⟩ := h
  refine ⟨hd, by simpa using he, hlt, ?_⟩
  rcases hor with hor | hor
  · exact Or.inl hor
  · exact Or.inr (not_ne_iff.mp hor)

theorem jsOrZero_some (v : ℚ) : jsOrZero (some v) = v := by
  unfold jsOrZero
  split <;> simp_all

theorem foldl_add_priceOf (items : List Item) :
    ∀ a : ℚ, items.foldl (fun acc i => acc + priceOf i) a = a + (items.map priceOf).sum := by
  induction items with
  | nil => intro a; simp
  | cons i t ih =>
      intro a
      simp only [List.foldl_cons, List.map_cons, List.sum_cons, ih]
      ring

theorem mul_length_le_sum (l : List ℚ) (c : ℚ) (h : ∀ x ∈ l, c ≤ x) :
    c * l.length ≤ l.sum := by
  induction l with
  | nil => simp
  | cons a t ih =>
      have ha := h a (List.mem_cons_self a t)
      have ht := ih (fun x hx => h x (List.mem_cons_of_mem a hx))
      simp only [List.sum_cons, List.length_cons]
      push_cast
      nlinarith

theorem sum_le_mul_length (l : List ℚ) (c : ℚ) (h : ∀ x ∈ l, x ≤ c) :
    l.sum ≤ c * l.length := by
  induction l with
  | nil => simp
  | cons a t ih =>
      have ha := h a (List.mem_cons_self a t)
      have ht := ih (fun x hx => h x (List.mem_cons_of_mem a hx))
      simp only [List.sum_cons, List.length_cons]
      push_cast
      nlinarith

theorem pairwise_head_le (l : List ℚ) (hp : l.Pairwise (· ≤ ·)) (h : ℚ)
    (hh : l.head? = some h) : ∀ x ∈ l, h ≤ x := by
  cases l with
  | nil => simp at hh
  | cons a t =>
      simp only [List.head?_cons, Option.some.injEq] at hh
      subst hh
      intro x hx
      rcases List.mem_cons.mp hx with rfl | hx2
      · exact le_refl x
      · exact (List.pairwise_cons.mp hp).1 x hx2

theorem pairwise_le_getLast (l : List ℚ) (hp : l.Pairwise (· ≤ ·)) (y : ℚ)
    (hy : l.getLast? = some y) : ∀ x ∈ l, x ≤ y := by
  induction l with
  | nil => simp at hy
  | cons a t ih =>
      intro x hx
      cases t with
      | nil =>
          simp only [List.getLast?_singleton, Option.some.injEq] at hy
          subst hy
          simp only [List.mem_singleton] at hx
          subst hx
          exact le_refl x
      | cons b t2 =>
          rw [List.getLast?_cons_cons] at hy
          rcases List.mem_cons.mp hx with rfl | hx2
          · exact (List.pairwise_cons.mp hp).1 y (List.mem_of_getLast?_eq_some hy)
          · exact ih (List.pairwise_cons.mp hp).2 hy x hx2

theorem round2_lt (x : ℚ) : x - 1 / 200 < round2 x := by
  unfold round2 jsRound
  rw [lt_div_iff₀ (by norm_num : (0 : ℚ) < 100)]
  have h := Int.lt_floor_add_one (x * 100 + 1 / 2)
  have h2 : (⌊x * 100 + 1 / 2⌋ : ℚ) > x * 100 - 1 / 2 := by linarith
  linarith

theorem round2_le (x : ℚ) : round2 x ≤ x + 1 / 200 := by
  unfold round2 jsRound
  rw [div_le_iff₀ (by norm_num : (0 : ℚ) < 100)]
  have h := Int.floor_le (x * 100 + 1 / 2)
  linarith

theorem calculateStats_ne_nil (items : List Item) (h : items ≠ []) (now : ℕ) :
    calculateStats items now =
      { total := items.length
        averagePrice := round2 ((items.map priceOf).sum / (items.length : ℚ))
        minPrice := some (jsOrZero ((items.map priceOf).mergeSort
          (fun a b => decide (a ≤ b))).head?)
        maxPrice := some (jsOrZero ((items.map priceOf).mergeSort
          (fun a b => decide (a ≤ b))).getLast?)
        categoryBreakdown := some (categoryStatsOf items)
        lastUpdated := some now } := by
  unfold calculateStats
  rw [if_neg (by simpa using h)]
  simp only [foldl_add_priceOf items 0, zero_add]

/-! ### The claims -/

/-- C1, as stated, is false on the code: with a cached, unexpired entry
whose stored token is `5`, a successfully probed current token of `0`
(a file modification time of exactly the epoch) differs from the stored
token, so the claim demands a refresh; but the JS guard
`fileModTime && ...` treats the falsy token `0` like a failed probe and
serves the cached entry without refreshing. -/
theorem C1_counterexample :
    (getStatistics (runOps [.stats 0 (some 5) (.ok [])]) 10 (some 0) (.ok [])).didRefresh
        = false ∧
      ¬ specValidC1 (runOps [.stats 0 (some 5) (.ok [])]) 10 (some 0) := by
  unfold specValidC1
  decide

/-- C1 (amended): for every call to `getStatistics()` on a reachable cache
state, the cached entry is served without refresh if and only if all of:
the snapshot is present, the current time is at most `expiresAt`, and the
current version token equals the stored `sourceVersion` — where a probe
that fails to produce a token, or produces the falsy token `0`, is treated
as the tokens being equal. -/
theorem C1_cache_hit_iff (cache : CacheEntry) (hR : Reachable cache) (now : ℕ)
    (fileModTime : Option ℕ) (readResult : Except Unit (List Item)) :
    (getStatistics cache now fileModTime readResult).didRefresh = false ↔
      cacheValid cache now fileModTime := by
  rw [didRefresh_eq]
  exact shouldRefresh_false_iff cache (reachable_inv hR) now fileModTime

/-- Witness for C1 (amended) at the initial state: the first call always
refreshes, matching the invalidity of the empty entry. -/
theorem C1_cache_hit_iff_witness :
    ((getStatistics emptyCache 0 none (.ok [])).didRefresh = false ↔
      cacheValid emptyCache 0 none) :=
  C1_cache_hit_iff emptyCache ⟨[], rfl⟩ 0 none (.ok [])

/-- C2: whenever `getStatistics()` finds the cached entry invalid and the
data read succeeds, it computes the new snapshot, replaces the whole
`statsCache` in one assignment — with `lastModified` equal to the token
probed earlier in the same call and `expiry` equal to the call-start time
plus the TTL constant — and responds with the newly computed snapshot;
and the TTL constant is 300000 ms. -/
theorem C2_refresh_procedure (cache : CacheEntry) (now : ℕ) (fileModTime : Option ℕ)
    (items : List Item) (h : shouldRefreshCache cache now fileModTime = true) :
    getStatistics cache now fileModTime (.ok items) =
        { response := .ok (some (calculateStats items now))
          cache := { data := some (calculateStats items now)
                     lastModified := fileModTime
                     expiry := some (now + CACHE_DURATION) }
          didRefresh := true } ∧
      CACHE_DURATION = 300000 := by
  refine ⟨?_, rfl⟩
  unfold getStatistics
  rw [if_pos h]

/-- Witness for C2: the very first call refreshes the empty cache. -/
theorem C2_refresh_procedure_witness :
    getStatistics emptyCache 0 none (.ok []) =
        { response := .ok (some (calculateStats [] 0))
          cache := { data := some (calculateStats [] 0)
                     lastModified := none
                     expiry := some (0 + CACHE_DURATION) }
          didRefresh := true } ∧
      CACHE_DURATION = 300000 :=
  C2_refresh_procedure emptyCache 0 none [] (by decide)

/-- C3, as stated, is false on the code: one `getStatistics()` call during
which the version probe fails but the data read succeeds leaves the cache
with `data` and `expiry` present but `lastModified` still `null`, so the
all-or-nothing invariant between the three fields does not hold. -/
theorem C3_counterexample :
    (runOps [.stats 0 none (.ok [])]).data.isSome = true ∧
      (runOps [.stats 0 none (.ok [])]).lastModified.isSome = false ∧
      (runOps [.stats 0 none (.ok [])]).expiry.isSome = true := by
  decide

/-- C3 (amended): in every reachable cache state, the snapshot is present
if and only if `expiresAt` is present, and `sourceVersion` can only be
present when the snapshot is; but the snapshot may be present with
`sourceVersion` absent (after a refresh whose version probe failed). -/
theorem C3_partial_invariant (cache : CacheEntry) (hR : Reachable cache) :
    (cache.data.isSome = true ↔ cache.expiry.isSome = true) ∧
      (cache.lastModified.isSome = true → cache.data.isSome = true) := by
  obtain ⟨h1, _, h3⟩ := reachable_inv hR
  exact ⟨h1, h3⟩

/-- Witness for C3 (amended) at the initial empty state. -/
theorem C3_partial_invariant_witness :
    (emptyCache.data.isSome = true ↔ emptyCache.expiry.isSome = true) ∧
      (emptyCache.lastModified.isSome = true → emptyCache.data.isSome = true) :=
  C3_partial_invariant emptyCache ⟨[], rfl⟩

/-- C4: if the data read fails during a forced refresh, the error
propagates to the caller (the handler forwards it to `next`), and the
failed call leaves the `statsCache` entry exactly as it was. -/
theorem C4_read_failure_atomic (cache : CacheEntry) (now : ℕ) (fileModTime : Option ℕ)
    (h : shouldRefreshCache cache now fileModTime = true) :
    getStatistics cache now fileModTime (.error ()) =
      { response := .error (), cache := cache, didRefresh := true } := by
  unfold getStatistics
  rw [if_pos h]

/-- Witness for C4: a failed read on the very first call. -/
theorem C4_read_failure_atomic_witness :
    getStatistics emptyCache 0 none (.error ()) =
      { response := .error (), cache := emptyCache, didRefresh := true } :=
  C4_read_failure_atomic emptyCache 0 none (by decide)

/-- C5: for the empty input the calculator takes the dedicated
short-circuit branch and returns exactly `{ total: 0, averagePrice: 0 }`
with every other field absent — in particular `averagePrice` is the exact
rational `0`, not an artifact of dividing by the zero count. -/
theorem C5_empty_input (now : ℕ) :
    calculateStats [] now = emptySnapshot ∧
      emptySnapshot.total = 0 ∧ emptySnapshot.averagePrice = 0 ∧
      emptySnapshot.minPrice = none ∧ emptySnapshot.maxPrice = none ∧
      emptySnapshot.categoryBreakdown = none ∧ emptySnapshot.lastUpdated = none :=
  ⟨rfl, rfl, rfl, rfl, rfl, rfl, rfl⟩

/-- C6, as stated, is false on the code: for the single item of price
`1/250` (i.e. `0.004`), the computed total is `1 > 0`, `minPrice` is
`1/250`, but `averagePrice` — rounded to 2 decimal places with
`Math.round(avg * 100) / 100` — is `0`, so `minPrice ≤ averagePrice`
fails. -/
theorem C6_counterexample :
    (calculateStats [{ price := some (1 / 250), category := none }] 0).total = 1 ∧
      (calculateStats [{ price := some (1 / 250), category := none }] 0).minPrice
          = some (1 / 250) ∧
      (calculateStats [{ price := some (1 / 250), category := none }] 0).averagePrice = 0 ∧
      ¬ ((1 / 250 : ℚ) ≤ 0) := by
  refine ⟨?_, ?_, ?_, by norm_num⟩
  · simp [calculateStats, priceOf, jsOrZero, round2, jsRound, categoryStatsOf, bumpCategory,
      categoryOf]
  · simp [calculateStats, priceOf, jsOrZero, round2, jsRound, categoryStatsOf, bumpCategory,
      categoryOf]
  · simp [calculateStats, priceOf, jsOrZero, round2, jsRound, categoryStatsOf, bumpCategory,
      categoryOf]
    norm_num

/-- C6 (amended): for every item collection with computed total greater
than `0`, the returned `averagePrice` (after 2-decimal rounding) satisfies
`minPrice - 1/200 < averagePrice ≤ maxPrice + 1/200`: rounding can move
the average below `minPrice` by strictly less than half a cent and above
`maxPrice` by at most half a cent, and no further, because the unrounded
mean lies between `minPrice` and `maxPrice`. -/
theorem C6_avg_between_min_max (items : List Item) (now : ℕ) (mn mx : ℚ)
    (hmn : (calculateStats items now).minPrice = some mn)
    (hmx : (calculateStats items now).maxPrice = some mx)
    (hpos : 0 < (calculateStats items now).total) :
    mn - 1 / 200 < (calculateStats items now).averagePrice ∧
      (calculateStats items now).averagePrice ≤ mx + 1 / 200 := by
  have hne : items ≠ [] := by
    intro hnil
    subst hnil
    simp [calculateStats, emptySnapshot] at hpos
  have hcs := calculateStats_ne_nil items hne now
  rw [hcs] at hmn hmx ⊢
  dsimp only at hmn hmx ⊢
  set P := items.map priceOf with hP
  set S := P.mergeSort (fun a b => decide (a ≤ b)) with hS
  have hperm : List.Perm S P := List.mergeSort_perm P _
  have hlen : S.length = P.length := hperm.length_eq
  have hPlen : P.length = items.length := List.length_map _ _
  have hSnil : S ≠ [] := by
    intro h0
    apply hne
    have hz : P.length = 0 := by rw [← hlen, h0]; rfl
    rwa [hPlen, List.length_eq_zero] at hz
  have hpw0 := @List.sorted_mergeSort ℚ (fun a b : ℚ => decide (a ≤ b))
      (fun a b c hab hbc => by
        simp only [decide_eq_true_eq] at hab hbc ⊢
        exact le_trans hab hbc)
      (fun a b => by
        simp only [Bool.or_eq_true, decide_eq_true_eq]
        exact le_total a b) P
  have hpw : S.Pairwise (· ≤ ·) := by
    refine List.Pairwise.imp ?_ hpw0
    intro a b hab
    exact of_decide_eq_true hab
  obtain ⟨h0, t0, hcons⟩ := List.exists_cons_of_ne_nil hSnil
  have hhead : S.head? = some h0 := by rw [hcons]; rfl
  rw [hhead, jsOrZero_some] at hmn
  have hylast : S.getLast? = some (S.getLast hSnil) := List.getLast?_eq_getLast S hSnil
  rw [hylast, jsOrZero_some] at hmx
  have hmin_le : ∀ x ∈ P, mn ≤ x := by
    intro x hx
    exact pairwise_head_le S hpw mn (by rw [hhead, hmn]) x (hperm.mem_iff.mpr hx)
  have hmax_ge : ∀ x ∈ P, x ≤ mx := by
    intro x hx
    exact pairwise_le_getLast S hpw mx (by rw [hylast, hmx]) x (hperm.mem_iff.mpr hx)
  have hn : (0 : ℚ) < (items.length : ℚ) := by
    exact_mod_cast List.length_pos.mpr hne
  have hsum_lo : mn * (items.length : ℚ) ≤ P.sum := by
    have hb := mul_length_le_sum P mn hmin_le
    rwa [hPlen] at hb
  have hsum_hi : P.sum ≤ mx * (items.length : ℚ) := by
    have hb := sum_le_mul_length P mx hmax_ge
    rwa [hPlen] at hb
  have havg_lo : mn ≤ P.sum / (items.length : ℚ) := by
    rw [le_div_iff₀ hn]
    exact hsum_lo
  have havg_hi : P.sum / (items.length : ℚ) ≤ mx := by
    rw [div_le_iff₀ hn]
    exact hsum_hi
  constructor
  · have hb := round2_lt (P.sum / (items.length : ℚ))
    linarith
  · have hb := round2_le (P.sum / (items.length : ℚ))
    linarith

/-- Witness for C6 (amended): a single item priced `10`. -/
theorem C6_avg_between_min_max_witness :
    (10 : ℚ) - 1 / 200
        < (calculateStats [{ price := some 10, category := none }] 0).averagePrice ∧
      (calculateStats [{ price := some 10, category := none }] 0).averagePrice
        ≤ 10 + 1 / 200 :=
  C6_avg_between_min_max [{ price := some 10, category := none }] 0 10 10
    (by simp [calculateStats, priceOf, jsOrZero])
    (by simp [calculateStats, priceOf, jsOrZero])
    (by simp [calculateStats])

/-- C7: two `getStatistics()` calls with no source mutation between them
(same probed token), where the second call happens while the entry left by
the first is within its TTL window, return identical responses — the same
snapshot object, `lastUpdated` included — leave the state untouched, and
together perform at most one full read-and-recompute pair. -/
theorem C7_two_calls_one_read (cache : CacheEntry) (t0 t1 : ℕ) (tok : Option ℕ)
    (items : List Item) (rd2 : Except Unit (List Item)) (e : ℕ)
    (h1 : (getStatistics cache t0 tok (.ok items)).cache.expiry = some e)
    (h2 : t1 ≤ e) :
    getStatistics (getStatistics cache t0 tok (.ok items)).cache t1 tok rd2 =
        { response := (getStatistics cache t0 tok (.ok items)).response
          cache := (getStatistics cache t0 tok (.ok items)).cache
          didRefresh := false } ∧
      readPairs (getStatistics cache t0 tok (.ok items)) +
        readPairs (getStatistics (getStatistics cache t0 tok (.ok items)).cache t1 tok rd2)
          ≤ 1 := by
  cases hr : shouldRefreshCache cache t0 tok with
  | true =>
      have hc1 : getStatistics cache t0 tok (.ok items) =
          { response := .ok (some (calculateStats items t0))
            cache := { data := some (calculateStats items t0)
                       lastModified := tok
                       expiry := some (t0 + CACHE_DURATION) }
            didRefresh := true } := by
        unfold getStatistics
        rw [if_pos hr]
      rw [hc1] at h1 ⊢
      have he : e = t0 + CACHE_DURATION := by simpa using h1.symm
      have hsr2 : shouldRefreshCache
          { data := some (calculateStats items t0), lastModified := tok,
            expiry := some (t0 + CACHE_DURATION) } t1 tok = false := by
        apply shouldRefresh_eq_false
        · rfl
        · simp [truthyOptNat_some, CACHE_DURATION]
        · simpa using he ▸ h2
        · exact Or.inr rfl
      have hres2 : getStatistics
          { data := some (calculateStats items t0), lastModified := tok,
            expiry := some (t0 + CACHE_DURATION) } t1 tok rd2 =
          { response := .ok (some (calculateStats items t0))
            cache := { data := some (calculateStats items t0)
                       lastModified := tok
                       expiry := some (t0 + CACHE_DURATION) }
            didRefresh := false } := by
        unfold getStatistics
        rw [if_neg (by simp [hsr2])]
      rw [hres2]
      exact ⟨rfl, by simp [readPairs]⟩
  | false =>
      have hc1 : getStatistics cache t0 tok (.ok items) =
          { response := .ok cache.data, cache := cache, didRefresh := false } := by
        unfold getStatistics
        rw [if_neg (by simp [hr])]
      rw [hc1] at h1 ⊢
      obtain ⟨hd, hex, _, hor⟩ := shouldRefresh_false_parts hr
      have hsr2 : shouldRefreshCache cache t1 tok = false := by
        apply shouldRefresh_eq_false hd hex _ hor
        rw [h1]
        simpa using h2
      have hres2 : getStatistics cache t1 tok rd2 =
          { response := .ok cache.data, cache := cache, didRefresh := false } := by
        unfold getStatistics
        rw [if_neg (by simp [hsr2])]
      rw [hres2]
      exact ⟨rfl, by simp [readPairs]⟩

/-- Witness for C7: a first call that populates the empty cache at time 0
and a second call at time 7 with the same token. -/
theorem C7_two_calls_one_read_witness :
    getStatistics (getStatistics emptyCache 0 (some 1) (.ok [])).cache 7 (some 1) (.error ()) =
        { response := (getStatistics emptyCache 0 (some 1) (.ok [])).response
          cache := (getStatistics emptyCache 0 (some 1) (.ok [])).cache
          didRefresh := false } ∧
      readPairs (getStatistics emptyCache 0 (some 1) (.ok [])) +
        readPairs (getStatistics (getStatistics emptyCache 0 (some 1) (.ok [])).cache 7
          (some 1) (.error ())) ≤ 1 :=
  C7_two_calls_one_read emptyCache 0 7 (some 1) [] (.error ()) 300000 (by decide) (by decide)

/-- C8: `invalidate()` resets the entry to the empty state from any state,
is idempotent, and the next `getStatistics()` call after it always runs
the refresh branch — one fresh read and recompute — no matter what the
previous TTL state was, responding with the freshly computed snapshot. -/
theorem C8_invalidate_then_refresh (cache : CacheEntry) (now : ℕ) (fileModTime : Option ℕ)
    (items : List Item) :
    invalidate cache = emptyCache ∧
      invalidate (invalidate cache) = invalidate cache ∧
      getStatistics (invalidate cache) now fileModTime (.ok items) =
        { response := .ok (some (calculateStats items now))
          cache := { data := some (calculateStats items now)
                     lastModified := fileModTime
                     expiry := some (now + CACHE_DURATION) }
          didRefresh := true } := by
  refine ⟨rfl, rfl, ?_⟩
  show getStatistics emptyCache now fileModTime (.ok items) = _
  unfold getStatistics
  rw [if_pos (by simp [shouldRefreshCache, emptyCache])]

/-- C9, as stated, is false on the code: after caching with stored token
`7`, a source mutation that changes the current token to `0` (a value
different from the stored one) does not trigger a recompute within the
TTL window, because the guard `fileModTime && ...` ignores falsy tokens. -/
theorem C9_counterexample :
    (getStatistics (runOps [.stats 0 (some 7) (.ok [])]) 20 (some 0) (.ok [])).didRefresh
        = false ∧
      (runOps [.stats 0 (some 7) (.ok [])]).data.isSome = true ∧
      (20 : ℕ) ≤ (runOps [.stats 0 (some 7) (.ok [])]).expiry.getD 0 ∧
      some 0 ≠ (runOps [.stats 0 (some 7) (.ok [])]).lastModified := by
  decide

/-- C9 (amended): for every cached entry and every source mutation that
changes the current version token to a nonzero (truthy) value different
from the stored `sourceVersion`, the next `getStatistics()` call runs the
refresh branch — even when the TTL has not expired, and indeed regardless
of the TTL state. -/
theorem C9_version_mismatch_refreshes (cache : CacheEntry) (now : ℕ) (v : ℕ)
    (readResult : Except Unit (List Item)) (hv : v ≠ 0)
    (hneq : cache.lastModified ≠ some v) :
    (getStatistics cache now (some v) readResult).didRefresh = true := by
  rw [didRefresh_eq]
  simp [shouldRefreshCache, truthyOptNat_some, hv, hneq]

/-- Witness for C9 (amended): a fresh token `1` against a cache whose
stored token is absent forces a refresh. -/
theorem C9_version_mismatch_refreshes_witness :
    (getStatistics { data := some emptySnapshot, lastModified := some 7, expiry := some 300000 }
        20 (some 9) (.ok [])).didRefresh = true :=
  C9_version_mismatch_refreshes
    { data := some emptySnapshot, lastModified := some 7, expiry := some 300000 }
    20 9 (.ok []) (by decide) (by decide)

/-- C10: with a present snapshot and unexpired TTL, a successfully probed
current token of `0` (falsy in JS) never triggers the version-mismatch
refresh: the stored snapshot is served and the state is untouched, even
though the stored `sourceVersion` differs from the current token. -/
theorem C10_falsy_token_serves_cache (cache : CacheEntry) (now : ℕ)
    (readResult : Except Unit (List Item)) (hd : cache.data.isSome = true)
    (he : truthyOptNat cache.expiry = true) (hexp : now ≤ cache.expiry.getD 0)
    (_hneq : cache.lastModified ≠ some 0) :
    getStatistics cache now (some 0) readResult =
      { response := .ok cache.data, cache := cache, didRefresh := false } := by
  have hfalse : shouldRefreshCache cache now (some 0) = false :=
    shouldRefresh_eq_false hd he hexp (Or.inl (by simp [truthyOptNat_some]))
  unfold getStatistics
  rw [if_neg (by simp [hfalse])]

/-- Witness for C10: stored token `5`, current token `0`, unexpired. -/
theorem C10_falsy_token_serves_cache_witness :
    getStatistics { data := some emptySnapshot, lastModified := some 5, expiry := some 300000 }
        10 (some 0) (.ok []) =
      { response := .ok (some emptySnapshot)
        cache := { data := some emptySnapshot, lastModified := some 5, expiry := some 300000 }
        didRefresh := false } :=
  C10_falsy_token_serves_cache
    { data := some emptySnapshot, lastModified := some 5, expiry := some 300000 }
    10 (.ok []) (by decide) (by decide) (by decide) (by decide)

end StatsRoute
